import Mathlib

/-
Shallow embedding of pyopt.py (pyopt version 0.84), a command-line argument
binding library, together with theorems settling the frozen claims about its
natural-language specification.

Conventions of the embedding:
  - Python exceptions become the `PyErr` inductive; fallible code returns
    `Except PyErr`.  The PyoptError family (PyoptError, NotEnoughArgs,
    PrintHelp) is distinguished from builtin Python exceptions (KeyError,
    IndexError, NotImplementedError, NameError, ValueError) and from
    getopt.GetoptError by `isPyoptFamily`.
  - Python dicts become insertion-ordered association lists with
    assignment-replaces-in-place semantics (`dictSet`, `dictGet`), matching
    the insertion-order guarantee of Python 3.7+ dicts.
  - Strings are modelled as Lean `String` over their character sequence
    (the sources only manipulate ASCII command-line tokens).
  - Declared casts are the ones exercised by the repository: str, int, bool,
    where bool is the special cast `_bool_cast` that ignores its input and
    returns True.  The wrapped message of a failed non-special cast
    abstracts the text of the underlying Python exception.
-/

set_option maxHeartbeats 1000000

namespace Pyopt

/-- Declared parameter casts used by the embedded functions. `cBool` is the
distinguished entry of `_DEFAULT_SPECIAL_CASTS`. -/
inductive Cast where
| cStr
| cInt
| cBool
deriving DecidableEq, Repr

/-- Runtime values produced by casting command-line tokens. -/
inductive Value where
| vStr : String → Value
| vInt : Int → Value
| vBool : Bool → Value
deriving DecidableEq, Repr

/-- Errors raised by the code: the PyoptError family (constructors `pyopt`,
`notEnoughArgs`, `printHelp`, mirroring PyoptError, NotEnoughArgs, PrintHelp)
plus the builtin Python exceptions the code can raise and getopt.GetoptError,
which are not members of that family. -/
inductive PyErr where
| pyopt : String → PyErr
| notEnoughArgs : String → PyErr
| printHelp : String → PyErr
| keyError : String → PyErr
| indexError : PyErr
| notImplementedError : String → PyErr
| nameError : PyErr
| valueError : String → PyErr
| getoptError : String → PyErr
deriving DecidableEq, Repr

/-- Membership in the single documented error family, i.e. being a PyoptError
(the class PyoptError or one of its subclasses PrintHelp, NotEnoughArgs). -/
def isPyoptFamily : PyErr → Bool
| PyErr.pyopt _ => true
| PyErr.notEnoughArgs _ => true
| PyErr.printHelp _ => true
| _ => false

/-- Lookup in a Python dict modelled as an association list. -/
def dictGet {α : Type} : List (String × α) → String → Option α
| [], _ => none
| (k, v) :: rest, key => if k = key then some v else dictGet rest key

/-- Assignment `d[key] = v` on a Python dict: replace in place when the key is
present, append otherwise (insertion order is preserved). -/
def dictSet {α : Type} : List (String × α) → String → α → List (String × α)
| [], key, v => [(key, v)]
| (k, w) :: rest, key, v =>
  if k = key then (key, v) :: rest else (k, w) :: dictSet rest key v

/-- Python str.startswith as a character-sequence prefix test. -/
def pyStartsWith (s p : String) : Bool := p.toList.isPrefixOf s.toList

/-- Python whitespace as stripped by str.strip: space, tab, newline, carriage
return, vertical tab, form feed. -/
def isSpaceChar (c : Char) : Bool :=
  decide (c = ' ' ∨ c = Char.ofNat 9 ∨ c = Char.ofNat 10 ∨ c = Char.ofNat 13 ∨
    c = Char.ofNat 11 ∨ c = Char.ofNat 12)

/-- Python str.strip over the character sequence. -/
def pyTrim (s : String) : String :=
  String.mk (((s.data.dropWhile isSpaceChar).reverse.dropWhile isSpaceChar).reverse)

/-- Split a character sequence at every occurrence of the separator; the
result always has one more piece than there are separators. -/
def splitOnCharList (sep : Char) (l : List Char) : List (List Char) :=
  l.foldr
    (fun c acc =>
      match acc with
      | [] => [[c]]
      | cur :: rest => if c = sep then [] :: cur :: rest else (c :: cur) :: rest)
    [[]]

/-- Split a string at every occurrence of the separator character. -/
def splitOnChar (sep : Char) (s : String) : List String :=
  (splitOnCharList sep s.data).map String.mk

/-- A decimal digit. -/
def isDigitChar (c : Char) : Bool := decide (48 ≤ c.toNat ∧ c.toNat ≤ 57)

/-- The numeric value of a nonempty all-digit character run. -/
def digitsToNat (l : List Char) : Option Nat :=
  match l with
  | [] => none
  | _ =>
    l.foldl
      (fun acc c =>
        match acc with
        | none => none
        | some n => if isDigitChar c then some (n * 10 + (c.toNat - 48)) else none)
      (some 0)

/-- Python int() over a decimal literal with an optional sign (surrounding
whitespace and underscore separators are abstracted away: the embedded
tokens never carry them). -/
def pyToInt (s : String) : Option Int :=
  match s.data with
  | '-' :: ds => (digitsToNat ds).map (fun n => -(n : Int))
  | '+' :: ds => (digitsToNat ds).map (fun n => (n : Int))
  | ds => (digitsToNat ds).map (fun n => (n : Int))

/-- Python s[0]. The callers in the source only apply it to nonempty
identifiers; the default is irrelevant there. -/
def strHead (s : String) : Char := s.toList.headD (Char.ofNat 0)

/-- The single-quote character, built numerically so the file avoids literal
apostrophes inside string literals. -/
def sq : String := String.singleton (Char.ofNat 39)

/-- Python ", ".join. -/
def joinComma (l : List String) : String := String.intercalate ", " l

/-- Which parse strategy a registered function uses: `_ArgsFunction`,
`_KwargsFunction` or `_MixedFunction`. -/
inductive Strategy where
| args
| kwargs
| mixed
deriving DecidableEq, Repr

/-- The data `_FunctionWrapper.__init__` extracts from a callable: its name,
ordered parameter names, the per-parameter declared cast (the casts dict,
total over `arg_names`), the count of defaulted trailing parameters, the
docstring, and which decorator (strategy) registered it. -/
structure FunctionWrapper where
  fname : String
  arg_names : List String
  casts : String → Cast
  defaults_count : Nat
  doc : Option String
  strategy : Strategy

/-- self.booleans: the parameters whose declared cast is exactly bool. -/
def booleansOf (fw : FunctionWrapper) : List String :=
  fw.arg_names.filter (fun a => decide (fw.casts a = Cast.cBool))

/-- self.needed_args = len(arg_names) - defaults_count. -/
def neededArgs (fw : FunctionWrapper) : Nat :=
  fw.arg_names.length - fw.defaults_count

/-- not_defaulted: the leading parameters without default values. -/
def notDefaultedOf (fw : FunctionWrapper) : List String :=
  fw.arg_names.take (neededArgs fw)

/-- self.required: non-defaulted parameters that are not booleans. -/
def requiredOf (fw : FunctionWrapper) : List String :=
  (notDefaultedOf fw).filter (fun a => decide (a ∉ booleansOf fw))

/-- self.optional = set(arg_names) - set(required).  Python iterates this set
in unspecified hash order; it is modelled in declaration order. -/
def optionalOf (fw : FunctionWrapper) : List String :=
  fw.arg_names.filter (fun a => decide (a ∉ requiredOf fw))

/-- The shortcut table {name[0]: name for name in arg_names}: a later
parameter with the same initial silently wins, hence lookup scans the
reversed declaration order. -/
def shortcutLookup (fw : FunctionWrapper) (c : Char) : Option String :=
  fw.arg_names.reverse.find? (fun n => strHead n = c)

/-- Application of a declared cast to a raw token.  bool is the special cast
`_bool_cast`, which ignores the value and returns True; int conversion fails
on non-numeric text (`none`). -/
def castApply : Cast → String → Option Value
| Cast.cBool, _ => some (Value.vBool true)
| Cast.cStr, v => some (Value.vStr v)
| Cast.cInt, v => (pyToInt v).map Value.vInt

/-- cast_parameter: look up the declared cast for the name, apply it, and wrap
any conversion failure in a PyoptError naming the parameter (the text of the
underlying Python exception is abstracted). -/
def castParameter (fw : FunctionWrapper) (nm v : String) : Except PyErr Value :=
  match castApply (fw.casts nm) v with
  | some pv => Except.ok pv
  | none => Except.error (PyErr.pyopt ("Failed parsing " ++ sq ++ nm ++ sq ++ "."))

/-- A parse result: the positional values and the keyword mapping, ready to be
splatted into the call. -/
abbrev ParseOut := List Value × List (String × Value)

/-- The positional strategy `_ArgsFunction.parse`: reject fewer tokens than
needed_args with NotEnoughArgs and more tokens than the parameter count with
PyoptError, otherwise cast the tokens in order against the zipped parameter
names and return them with an empty keyword mapping. -/
def argsParse (fw : FunctionWrapper) (raw : List String) : Except PyErr ParseOut :=
  if raw.length < neededArgs fw then
    Except.error (PyErr.notEnoughArgs
      (toString (neededArgs fw) ++ " arguments required, got only " ++
        toString raw.length ++ "."))
  else if raw.length > fw.arg_names.length then
    Except.error (PyErr.pyopt
      ("Got " ++ toString raw.length ++ " arguments and expected at most " ++
        toString fw.arg_names.length ++ "."))
  else
    match (raw.zip fw.arg_names).mapM (fun p => castParameter fw p.2 p.1) with
    | Except.error e => Except.error e
    | Except.ok vals => Except.ok (vals, [])

/-- How `_KwargsFunction.parse` treats one scanned token: either a bundled run
of boolean shorts (a token -xyz of length above two), or a resolved switch
name to be handled by the common tail of the loop body. -/
inductive KwStep where
| bundle : List Char → KwStep
| named : String → KwStep

/-- Classification of one token by `_KwargsFunction.parse`: long form --name
takes the text after the dashes; short form -x of length two resolves through
the shortcut table (a missing letter is a Python KeyError); a longer -xyz is a
boolean bundle; a lone dash reuses the `name` local left over from a previous
iteration (an unbound local, NameError, when there is none); anything not
starting with a dash is a PyoptError. -/
def kwClassify (fw : FunctionWrapper) (argument : String) (lastName : Option String) :
    Except PyErr KwStep :=
  if pyStartsWith argument "--" then
    Except.ok (KwStep.named (argument.drop 2))
  else if pyStartsWith argument "-" then
    if argument.length = 2 then
      match shortcutLookup fw (strHead (argument.drop 1)) with
      | some n => Except.ok (KwStep.named n)
      | none => Except.error (PyErr.keyError (String.singleton (strHead (argument.drop 1))))
    else if argument.length > 2 then
      Except.ok (KwStep.bundle (argument.drop 1).toList)
    else
      match lastName with
      | some n => Except.ok (KwStep.named n)
      | none => Except.error PyErr.nameError
  else
    Except.error (PyErr.pyopt ("Options must start with " ++ sq ++ "-" ++ sq ++
      " or " ++ sq ++ "--" ++ sq ++ "."))

/-- The bundled-booleans loop of `_KwargsFunction.parse`: each character after
the dash resolves through the shortcut table (KeyError when absent), must name
a boolean parameter (PyoptError otherwise), and is set True.  Returns the
updated dict and the last resolved name (the value of the `name` local after
the loop). -/
def bundleSet (fw : FunctionWrapper) :
    List Char → List (String × Value) → Option String →
    Except PyErr (List (String × Value) × Option String)
| [], d, ln => Except.ok (d, ln)
| c :: cs, d, _ =>
  match shortcutLookup fw c with
  | none =>
    Except.error (PyErr.keyError (String.singleton c))
  | some n =>
    if n ∈ booleansOf fw then
      bundleSet fw cs (dictSet d n (Value.vBool true)) (some n)
    else
      Except.error (PyErr.pyopt ("Illegal option " ++ sq ++ String.singleton c ++
        sq ++ " given as boolean."))

/-- The scanning loop of `_KwargsFunction.parse` over the raw tokens, with the
result dict and the `name` local threaded through.  After a switch name is
resolved it must be a parameter name (PyoptError otherwise); a boolean switch
is set True and consumes no value token; any other switch consumes the next
token as its value (IndexError past the end) and stores its cast. -/
def kwLoop (fw : FunctionWrapper) :
    List String → Option String → List (String × Value) →
    Except PyErr (List (String × Value))
| [], _, d => Except.ok d
| argument :: rest, lastName, d =>
  match kwClassify fw argument lastName with
  | Except.error e => Except.error e
  | Except.ok (KwStep.bundle cs) =>
    match bundleSet fw cs d lastName with
    | Except.error e => Except.error e
    | Except.ok (d2, ln2) => kwLoop fw rest ln2 d2
  | Except.ok (KwStep.named nm) =>
    if nm ∈ fw.arg_names then
      if fw.casts nm = Cast.cBool then
        kwLoop fw rest (some nm) (dictSet d nm (Value.vBool true))
      else
        match rest with
        | [] => Except.error PyErr.indexError
        | v :: rest2 =>
          match castParameter fw nm v with
          | Except.error e => Except.error e
          | Except.ok pv => kwLoop fw rest2 (some nm) (dictSet d nm pv)
    else
      Except.error (PyErr.pyopt ("Illegal option " ++ sq ++ nm ++ sq ++ " given."))

/-- The dict `_KwargsFunction.parse` starts its scan from: every boolean
parameter pre-seeded to False, in declaration order. -/
def kwargsInit (fw : FunctionWrapper) : List (String × Value) :=
  (booleansOf fw).foldl (fun d n => dictSet d n (Value.vBool false)) []

/-- The keyword strategy `_KwargsFunction.parse`: pre-seed the booleans, scan
the tokens, then fail with NotEnoughArgs listing every required parameter
absent from the result dict, and otherwise return an empty positional list
with the dict. -/
def kwargsParse (fw : FunctionWrapper) (raw : List String) : Except PyErr ParseOut :=
  match kwLoop fw raw none (kwargsInit fw) with
  | Except.error e => Except.error e
  | Except.ok d =>
    let notGiven := (requiredOf fw).filter (fun a => decide (dictGet d a = none))
    if notGiven = [] then
      Except.ok ([], d)
    else
      Except.error (PyErr.notEnoughArgs
        ("The following options are required: " ++ joinComma notGiven ++ "."))

/-- getopt.short_has_arg: scan the short-option string for the first position
holding this letter (which must not be a colon); the option takes an argument
iff the next position is a colon.  A letter that never appears is a
GetoptError. -/
def shortHasArg (opt : Char) : List Char → Except PyErr Bool
| [] =>
  Except.error (PyErr.getoptError
    ("option -" ++ String.singleton opt ++ " not recognized"))
| c :: cs =>
  if opt = c ∧ c ≠ ':' then Except.ok (decide (cs.head? = some ':'))
  else shortHasArg opt cs

/-- Python str.endswith as a character-sequence suffix test. -/
def pyEndsWith (s p : String) : Bool := p.toList.isSuffixOf s.toList

/-- getopt.long_has_args: prefix-match the given text against the long-option
table; an exact match (with or without a trailing equals sign) wins, otherwise
the prefix must be unique; the matched option takes a value iff its table
entry ends in an equals sign. -/
def longHasArgs (opt : String) (longopts : List String) : Except PyErr (Bool × String) :=
  let possibilities := longopts.filter (fun o => pyStartsWith o opt)
  if possibilities = [] then
    Except.error (PyErr.getoptError ("option --" ++ opt ++ " not recognized"))
  else if opt ∈ possibilities then
    Except.ok (false, opt)
  else if (opt ++ "=") ∈ possibilities then
    Except.ok (true, opt)
  else if possibilities.length > 1 then
    Except.error (PyErr.getoptError ("option --" ++ opt ++ " not a unique prefix"))
  else
    let u := possibilities.headD ""
    if pyEndsWith u "=" then Except.ok (true, String.mk u.data.dropLast)
    else Except.ok (false, u)

/-- Split at the first equals sign, like opt.index and the slicing in
getopt.do_longs: the text before it and, when present, the text after it. -/
def splitOnceEq (s : String) : String × Option String :=
  match s.toList.findIdx? (fun c => c = '=') with
  | none => (s, none)
  | some i => (String.mk (s.toList.take i), some (String.mk (s.toList.drop (i + 1))))

/-- getopt.do_longs: resolve one --token (its text after the dashes), consume
the next token as its value when it takes one and none was attached with an
equals sign, and return the produced pair with the remaining tokens. -/
def doLongs (longopts : List String) (optWhole : String) (args : List String) :
    Except PyErr ((String × String) × List String) :=
  match splitOnceEq optWhole with
  | (opt0, optarg0) =>
    match longHasArgs opt0 longopts with
    | Except.error e => Except.error e
    | Except.ok (hasArg, opt) =>
      if hasArg then
        match optarg0 with
        | none =>
          match args with
          | [] =>
            Except.error (PyErr.getoptError ("option --" ++ opt ++ " requires argument"))
          | a :: rest => Except.ok (("--" ++ opt, a), rest)
        | some oa => Except.ok (("--" ++ opt, oa), args)
      else
        match optarg0 with
        | some _ =>
          Except.error (PyErr.getoptError
            ("option --" ++ opt ++ " must not have an argument"))
        | none => Except.ok (("--" ++ opt, ""), args)

/-- getopt.do_shorts: consume the letters of one -token left to right; a
value-taking letter swallows the rest of the token, or the next token when it
is last; the others produce empty-valued pairs. -/
def doShorts (shortopts : List Char) :
    List Char → List String → Except PyErr (List (String × String) × List String)
| [], args => Except.ok ([], args)
| c :: cs, args =>
  match shortHasArg c shortopts with
  | Except.error e => Except.error e
  | Except.ok b =>
    if b then
      match cs with
      | [] =>
        match args with
        | [] =>
          Except.error (PyErr.getoptError
            ("option -" ++ String.singleton c ++ " requires argument"))
        | a :: rest => Except.ok ([("-" ++ String.singleton c, a)], rest)
      | _ :: _ => Except.ok ([("-" ++ String.singleton c, String.mk cs)], args)
    else
      match doShorts shortopts cs args with
      | Except.error e => Except.error e
      | Except.ok (opts, rest) => Except.ok (("-" ++ String.singleton c, "") :: opts, rest)

theorem doLongs_len (lo : List String) (ow : String) (args : List String)
    (p : String × String) (rest : List String)
    (h : doLongs lo ow args = Except.ok (p, rest)) : rest.length ≤ args.length := by
  unfold doLongs at h
  repeat' split at h
  all_goals try cases h
  all_goals try simp only [List.length_cons]
  all_goals omega

theorem doShorts_cons_eq (shortopts : List Char) (c : Char) (cs : List Char)
    (args : List String) :
    doShorts shortopts (c :: cs) args =
    (match shortHasArg c shortopts with
    | Except.error e => Except.error e
    | Except.ok b =>
      if b then
        match cs with
        | [] =>
          match args with
          | [] =>
            Except.error (PyErr.getoptError
              ("option -" ++ String.singleton c ++ " requires argument"))
          | a :: rest => Except.ok ([("-" ++ String.singleton c, a)], rest)
        | _ :: _ => Except.ok ([("-" ++ String.singleton c, String.mk cs)], args)
      else
        match doShorts shortopts cs args with
        | Except.error e => Except.error e
        | Except.ok (opts, rest) =>
          Except.ok (("-" ++ String.singleton c, "") :: opts, rest)) := rfl

theorem doShorts_len (so : List Char) (cs : List Char) (args : List String)
    (ps : List (String × String)) (rest : List String)
    (h : doShorts so cs args = Except.ok (ps, rest)) : rest.length ≤ args.length := by
  induction cs generalizing args ps rest with
  | nil =>
    rw [show doShorts so [] args = Except.ok ([], args) from rfl] at h
    cases h
    exact Nat.le_refl _
  | cons c cs ih =>
    rw [doShorts_cons_eq] at h
    repeat' split at h
    all_goals try cases h
    all_goals try (simp only [List.length_cons]; omega)
    all_goals try exact Nat.le_refl _
    case _ hrec =>
      exact ih _ _ _ hrec

/-- The main loop of getopt.getopt: options are consumed only from the front
of the token list; the loop stops at the first token that does not start with
a dash or is a lone dash (those tokens and everything after them are returned
as the trailing non-option arguments), and a bare double dash is swallowed and
stops it as well. -/
def getoptLoop (shortopts : List Char) (longopts : List String) (args : List String) :
    Except PyErr (List (String × String) × List String) :=
  match args with
  | [] => Except.ok ([], [])
  | arg :: rest =>
    if pyStartsWith arg "-" = false ∨ arg = "-" then
      Except.ok ([], arg :: rest)
    else if arg = "--" then
      Except.ok ([], rest)
    else if pyStartsWith arg "--" then
      match hdl : doLongs longopts (arg.drop 2) rest with
      | Except.error e => Except.error e
      | Except.ok (p, args1) =>
        match getoptLoop shortopts longopts args1 with
        | Except.error e => Except.error e
        | Except.ok (opts, rem) => Except.ok (p :: opts, rem)
    else
      match hds : doShorts shortopts (arg.drop 1).toList rest with
      | Except.error e => Except.error e
      | Except.ok (ps, args1) =>
        match getoptLoop shortopts longopts args1 with
        | Except.error e => Except.error e
        | Except.ok (opts, rem) => Except.ok (ps ++ opts, rem)
termination_by args.length
decreasing_by
  · exact Nat.lt_succ_of_le (doLongs_len _ _ _ _ _ (by assumption))
  · exact Nat.lt_succ_of_le (doShorts_len _ _ _ _ _ (by assumption))

/-- Python list.remove: delete the first occurrence, ValueError when absent. -/
def listRemove : List String → String → Except PyErr (List String)
| [], _ => Except.error (PyErr.valueError "list.remove(x): x not in list")
| y :: rest, x =>
  if y = x then Except.ok rest
  else
    match listRemove rest x with
    | Except.error e => Except.error e
    | Except.ok r => Except.ok (y :: r)

/-- Name resolution for one option pair produced by getopt, as at the top of
the optlist loop in `_MixedFunction.parse`: a long form by its text after the
dashes, a short form through the shortcut table (a missing letter is a Python
KeyError), and otherwise the stale `name` local of the previous iteration (an
unbound local, NameError, when there is none) — getopt only ever emits
dash-led options, so that branch mirrors the Python code shape. -/
def resolveOptName (fw : FunctionWrapper) (opt : String) (lastName : Option String) :
    Except PyErr String :=
  if pyStartsWith opt "--" then Except.ok (opt.drop 2)
  else if pyStartsWith opt "-" then
    match shortcutLookup fw (strHead (opt.drop 1)) with
    | some n => Except.ok n
    | none => Except.error (PyErr.keyError (String.singleton (strHead (opt.drop 1))))
  else
    match lastName with
    | some n => Except.ok n
    | none => Except.error PyErr.nameError

/-- The optlist loop of `_MixedFunction.parse`: each produced pair resolves to
a parameter name, stores the cast value in the keyword dict, and removes that
name from the pending positional parameter list. -/
def processOpts (fw : FunctionWrapper) :
    List (String × String) → Option String → List (String × Value) → List String →
    Except PyErr (List (String × Value) × List String)
| [], _, kw, pa => Except.ok (kw, pa)
| (opt, val) :: rest, lastName, kw, pa =>
  match resolveOptName fw opt lastName with
  | Except.error e => Except.error e
  | Except.ok nm =>
    match castParameter fw nm val with
    | Except.error e => Except.error e
    | Except.ok v =>
      match listRemove pa nm with
      | Except.error e => Except.error e
      | Except.ok pa2 => processOpts fw rest (some nm) (dictSet kw nm v) pa2

/-- The short-option specification `_MixedFunction.parse` hands to getopt.
The source computes it as the join of [[name][0] for name in self.booleans]
followed by "%s:" % name[0] for the required names: the first comprehension
wraps each name in a singleton list and indexes that list, a no-op, so the
FULL names of the boolean parameters are joined in (every one of their
characters becomes a no-argument short option). -/
def buildShorts (fw : FunctionWrapper) : String :=
  String.join (booleansOf fw) ++
    String.join ((requiredOf fw).map (fun n => String.singleton (strHead n) ++ ":"))

/-- The long-option specification handed to getopt: every boolean name as a
no-argument long option, every required name with a trailing equals sign as a
value-taking long option. -/
def buildLongs (fw : FunctionWrapper) : List String :=
  booleansOf fw ++ (requiredOf fw).map (fun n => n ++ "=")

/-- The mixed strategy `_MixedFunction.parse`: run getopt over the raw tokens
with the built option specifications, process the produced switches, cast the
trailing non-option tokens zipped against the parameters not claimed by a
switch, and fail with NotEnoughArgs when a required parameter was satisfied
neither by a switch nor positionally. -/
def mixedParse (fw : FunctionWrapper) (raw : List String) : Except PyErr ParseOut :=
  match getoptLoop (buildShorts fw).toList (buildLongs fw) raw with
  | Except.error e => Except.error e
  | Except.ok (optlist, uncasted) =>
    match processOpts fw optlist none [] fw.arg_names with
    | Except.error e => Except.error e
    | Except.ok (kw, posArgs) =>
      match (posArgs.zip uncasted).mapM (fun p => castParameter fw p.1 p.2) with
      | Except.error e => Except.error e
      | Except.ok vals =>
        let argsGiven := (posArgs.zip uncasted).map Prod.fst
        let notKeyGiven := (requiredOf fw).filter (fun a => decide (dictGet kw a = none))
        let notGiven := notKeyGiven.filter (fun a => decide (a ∉ argsGiven))
        if notGiven = [] then Except.ok (vals, kw)
        else
          Except.error (PyErr.notEnoughArgs
            ("The following options are required: " ++ joinComma notGiven ++ "."))

/-- Strategy dispatch: which parse method the registered wrapper runs. -/
def FunctionWrapper.parse (fw : FunctionWrapper) (raw : List String) :
    Except PyErr ParseOut :=
  match fw.strategy with
  | Strategy.args => argsParse fw raw
  | Strategy.kwargs => kwargsParse fw raw
  | Strategy.mixed => mixedParse fw raw

/-- Python str.splitlines for strings whose only line separator is the
newline character: split on newlines without a trailing empty piece. -/
def splitLinesPy (s : String) : List String :=
  let parts := splitOnChar (Char.ofNat 10) s
  if parts.getLast? = some "" then parts.dropLast else parts

/-- Membership in the character class of the docstring pattern.  The source
writes the class as space, tab-to-colon: the tab-to-colon RANGE covers every
character from code 9 through code 58 (so also digits and much punctuation),
and the space (code 32) lies inside it. -/
def isSepChar (c : Char) : Bool := decide (9 ≤ c.toNat ∧ c.toNat ≤ 58)

/-- One line of `_parse_docstring`: strip the line and match it against the
pattern built by joining the parameter names with the regex alternation bar.
The first name in declaration order that is a line-start prefix wins (the
trailing part of the pattern matches anything), the greedy class run after it
is dropped, and the remaining text is stripped into the help text.  With no
parameters the alternation is empty and every line matches with an empty
name, exactly as the empty Python pattern does. -/
def lineMatch (names : List String) (ln : String) : Option (String × String) :=
  let stripped := pyTrim ln
  match names with
  | [] => some ("", pyTrim (String.mk (stripped.data.dropWhile isSepChar)))
  | _ :: _ =>
    (names.find? (fun n => pyStartsWith stripped n)).map
      (fun n =>
        (n, pyTrim (String.mk ((stripped.data.drop n.length).dropWhile isSepChar))))

/-- The docstring annotator `_parse_docstring`: every matching line assigns
its parameter entry in the dict (a later line for the same name overwrites
the earlier one); the summary is the joined stripped text of the lines before
the first matching line, guarded by the comparison of that line index with
the character count of the docstring, as in the source. -/
def parseDocstring (names : List String) (doc : Option String) :
    String × List (String × String) :=
  let docs := doc.getD ""
  let lines := splitLinesPy docs
  let docsDict := (lines.filterMap (lineMatch names)).foldl
    (fun d p => dictSet d p.1 p.2) []
  let firstLineIdx := lines.findIdx? (fun ln => (lineMatch names ln).isSome)
  let summary :=
    match firstLineIdx with
    | some i =>
      if i < docs.length then pyTrim (String.intercalate "\n" (lines.take i)) else ""
    | none => ""
  (summary, docsDict)

/-- The helper `_indent`: strip each line and put the given number of tabs in
front of it. -/
def indentText (s : String) (tabCount : Nat) : String :=
  String.intercalate "\n"
    ((splitLinesPy s).map (fun ln => String.mk (List.replicate tabCount (Char.ofNat 9)) ++ pyTrim ln))

/-- get_doc: the indented stripped docstring, empty when there is none. -/
def getDoc (fw : FunctionWrapper) : String :=
  match fw.doc with
  | none => ""
  | some d => indentText (pyTrim d) 2

/-- parameters_repr of the three wrapper classes.  The source iterates
self.optional, a Python set with unspecified order; it is modelled in
declaration order. -/
def parametersRepr (fw : FunctionWrapper) : String :=
  match fw.strategy with
  | Strategy.args =>
    String.intercalate " "
      (requiredOf fw ++ (optionalOf fw).map (fun a => "[" ++ a ++ "]"))
  | _ =>
    String.intercalate " "
      ((requiredOf fw).map (fun a => "-" ++ String.singleton (strHead a) ++ " " ++ a) ++
        ((optionalOf fw).filter (fun a => decide (a ∉ booleansOf fw))).map
          (fun a => "[-" ++ String.singleton (strHead a) ++ " " ++ a ++ "]") ++
        (booleansOf fw).map (fun a => "[-" ++ String.singleton (strHead a) ++ "]"))

/-- docstring_usage: the summary followed by one help line per documented
parameter, with both switch forms when the shortcut table maps the initial
back to the same name.  The shortcut-table lookup cannot miss when the
parameter list is nonempty (the documented name itself carries its initial);
the impossible miss is rendered as the long form. -/
def docstringUsage (fw : FunctionWrapper) : String :=
  let sd := parseDocstring fw.arg_names fw.doc
  match fw.strategy with
  | Strategy.args =>
    String.intercalate "\n" (sd.1 :: sd.2.map (fun p => "\t" ++ p.1 ++ " - " ++ p.2))
  | _ =>
    String.intercalate "\n" (sd.1 :: sd.2.map (fun p =>
      match shortcutLookup fw (strHead p.1) with
      | some n =>
        if n = p.1 then
          "\t-" ++ String.singleton (strHead p.1) ++ " --" ++ p.1 ++ " - " ++ p.2
        else "\t--" ++ p.1 ++ " - " ++ p.2
      | none => "\t--" ++ p.1 ++ " - " ++ p.2))

/-- get_usage: a tab, the function name, its parameter synopsis, then the
indented docstring. -/
def getUsage (fw : FunctionWrapper) : String :=
  "\t" ++ fw.fname ++ " " ++ parametersRepr fw ++ "\n" ++ getDoc fw

/-- The Exposer registry self.functions_dict: an insertion-ordered mapping
from function name to wrapper. -/
abbrev Registry := List (String × FunctionWrapper)

instance : Inhabited FunctionWrapper :=
  ⟨{ fname := "", arg_names := [], casts := fun _ => Cast.cStr,
     defaults_count := 0, doc := none, strategy := Strategy.args }⟩

/-- os.path.basename for slash-separated paths. -/
def basename (p : String) : String := (splitOnChar (Char.ofNat 47) p).getLastD ""

/-- single_usage: the script name with the synopsis, then the docstring-derived
help. -/
def singleUsage (script : String) (fw : FunctionWrapper) : String :=
  "Usage: " ++ script ++ " " ++ parametersRepr fw ++ "\n" ++ docstringUsage fw

/-- complete_usage in the multiple-functions case. -/
def completeUsageMulti (funcs : Registry) (script : String) : String :=
  String.intercalate "\n"
    (("Usage: " ++ script ++ " [function_name] [args]") ::
      "Available functions are:" :: funcs.map (fun p => getUsage p.2))

/-- give_help: usage of the function named at index two of the command line,
falling back to the complete usage on a missing index or unknown name. -/
def giveHelp (funcs : Registry) (script : String) (cmd_args : List String) : String :=
  match cmd_args.drop 2 with
  | [] => completeUsageMulti funcs script
  | fname :: _ =>
    match dictGet funcs fname with
    | some f => getUsage f
    | none => completeUsageMulti funcs script

/-- The state `Exposer._setup` leaves behind for parse_args. -/
structure SetupSt where
  script_name : String
  is_single : Bool
  raw_args : List String
  func : FunctionWrapper

/-- func_usage: the single-function usage text, or the selected function
usage in the named-dispatch case. -/
def funcUsage (st : SetupSt) : String :=
  if st.is_single then singleUsage st.script_name st.func else getUsage st.func

/-- The help-trigger tokens HELP_SET. -/
def HELP_SET : List String := ["-h", "--help", "/?", "?", "-?"]

/-- Exposer._setup over a token list: read the script name from the first
token (an empty list is an IndexError there), fail with NotImplementedError
when nothing is registered, then either take the single registered function
with everything after the program path as raw arguments (a leading help
trigger raises PrintHelp with the complete usage), or dispatch on the second
token: missing means PrintHelp with complete usage, a help trigger means
PrintHelp through give_help, a registered name selects that function with the
tokens from index two as raw arguments, and anything else is the unknown
function PyoptError.  The misspelling in that message is verbatim from the
source. -/
def setup (funcs : Registry) (cmd_args : List String) : Except PyErr SetupSt :=
  match cmd_args with
  | [] => Except.error PyErr.indexError
  | prog :: rest =>
    let script := basename prog
    if funcs.length = 0 then
      Except.error (PyErr.notImplementedError
        "No functions were decorated for command-line usage.")
    else if funcs.length = 1 then
      let fw := (funcs.headD default).2
      match rest with
      | [] =>
        Except.ok { script_name := script, is_single := true, raw_args := [], func := fw }
      | a :: _ =>
        if a ∈ HELP_SET then Except.error (PyErr.printHelp (singleUsage script fw))
        else
          Except.ok { script_name := script, is_single := true, raw_args := rest, func := fw }
    else
      match rest with
      | [] => Except.error (PyErr.printHelp (completeUsageMulti funcs script))
      | a :: rest2 =>
        if a ∈ HELP_SET then
          Except.error (PyErr.printHelp (giveHelp funcs script (prog :: rest)))
        else
          match dictGet funcs a with
          | some fw =>
            Except.ok { script_name := script, is_single := false, raw_args := rest2, func := fw }
          | none =>
            Except.error (PyErr.pyopt ("Unkown function " ++ sq ++ a ++ sq ++ "."))

/-- Exposer.parse_args: run _setup, delegate the raw arguments to the selected
strategy, and apply the single reinterpretation rule: a NotEnoughArgs raised
with zero raw arguments becomes PrintHelp carrying func_usage, every other
outcome propagates unchanged.  The callable of the returned triple is
represented by the function name. -/
def parseArgs (funcs : Registry) (cmd_args : List String) :
    Except PyErr (String × ParseOut) :=
  match setup funcs cmd_args with
  | Except.error e => Except.error e
  | Except.ok st =>
    match st.func.parse st.raw_args with
    | Except.error (PyErr.notEnoughArgs m) =>
      if st.raw_args.length = 0 then Except.error (PyErr.printHelp (funcUsage st))
      else Except.error (PyErr.notEnoughArgs m)
    | Except.error e => Except.error e
    | Except.ok out => Except.ok (st.func.fname, out)

/-- Whether a function requires at least one parameter under its own
strategy: the positional strategy demands a token for every non-defaulted
parameter, the keyword and mixed strategies for every required (non-boolean,
non-defaulted) one. -/
def requiresOne (fw : FunctionWrapper) : Bool :=
  match fw.strategy with
  | Strategy.args => decide (0 < neededArgs fw)
  | _ => decide (requiredOf fw ≠ [])

/-- The short-option string as the specification words it (the refinement
reference for the construction in `buildShorts`): one no-argument short
option per boolean parameter given by that parameter's FIRST LETTER, and one
mandatory-argument short option per required parameter given by its first
letter. -/
def specShortOptions (fw : FunctionWrapper) : String :=
  String.join ((booleansOf fw).map (fun n => String.singleton (strHead n))) ++
    String.join ((requiredOf fw).map (fun n => String.singleton (strHead n) ++ ":"))

/-- The positional example of the module docstring: regular_function with
arg1 annotated str and arg2 annotated int, no defaults. -/
def fwPos : FunctionWrapper :=
  { fname := "regular_function", arg_names := ["arg1", "arg2"],
    casts := fun a => if a = "arg2" then Cast.cInt else Cast.cStr,
    defaults_count := 0, doc := none, strategy := Strategy.args }

/-- The flag-only reference function of the specification: one required
string parameter name and one boolean parameter debug, exposed through the
keyword strategy. -/
def fwKw : FunctionWrapper :=
  { fname := "greet", arg_names := ["name", "debug"],
    casts := fun a => if a = "debug" then Cast.cBool else Cast.cStr,
    defaults_count := 0, doc := none, strategy := Strategy.kwargs }

/-- The same signature exposed through the mixed strategy. -/
def fwMix : FunctionWrapper :=
  { fname := "mix", arg_names := ["name", "debug"],
    casts := fun a => if a = "debug" then Cast.cBool else Cast.cStr,
    defaults_count := 0, doc := none, strategy := Strategy.mixed }

/-
Theorems.  First the shared helper lemmas about the embedded operations,
then one theorem per claim (with its witness or counterexample).
-/

theorem dictGet_dictSet {α : Type} (d : List (String × α)) (k key : String) (v : α) :
    dictGet (dictSet d k v) key = if k = key then some v else dictGet d key := by
  induction d with
  | nil => simp [dictGet, dictSet]
  | cons p rest ih =>
    obtain ⟨k1, w⟩ := p
    simp only [dictSet]
    by_cases h1 : k1 = k
    · subst h1
      simp only [if_pos rfl, dictGet]
      by_cases h2 : k1 = key <;> simp [h2]
    · simp only [if_neg h1, dictGet, ih]
      by_cases h2 : k1 = key
      · subst h2
        have h3 : ¬ k = k1 := fun hh => h1 hh.symm
        simp [h3]
      · simp [h2]

theorem dictGet_foldl_setconst {α : Type} (l : List String) (d : List (String × α))
    (k : String) (v : α) :
    dictGet (l.foldl (fun d2 n => dictSet d2 n v) d) k =
      if k ∈ l then some v else dictGet d k := by
  induction l generalizing d with
  | nil => simp
  | cons n t ih =>
    simp only [List.foldl_cons]
    rw [ih]
    by_cases h1 : k ∈ t
    · simp [h1]
    · simp only [if_neg h1]
      rw [dictGet_dictSet]
      by_cases h2 : n = k
      · subst h2
        simp
      · have h3 : ¬ k = n := fun hh => h2 hh.symm
        simp [List.mem_cons, h1, h2, h3]

theorem mem_required_not_boolean (fw : FunctionWrapper) (a : String)
    (h : a ∈ requiredOf fw) : a ∉ booleansOf fw := by
  have := (List.mem_filter.mp h).2
  simpa using this

theorem mem_required_mem_args (fw : FunctionWrapper) (a : String)
    (h : a ∈ requiredOf fw) : a ∈ fw.arg_names := by
  have h1 : a ∈ notDefaultedOf fw := (List.mem_filter.mp h).1
  exact List.take_subset _ _ h1

theorem listRemove_sublist (l : List String) (x : String) (l2 : List String)
    (h : listRemove l x = Except.ok l2) : l2.Sublist l := by
  induction l generalizing l2 with
  | nil => simp [listRemove] at h
  | cons y rest ih =>
    unfold listRemove at h
    split at h
    · cases h
      exact List.sublist_cons_self _ _
    · split at h
      · cases h
      · cases h
        next hrec => exact (ih _ hrec).cons₂ _

theorem listRemove_mem (l : List String) (x a : String) (l2 : List String)
    (h : listRemove l x = Except.ok l2) (ha : a ∈ l) (hne : a ≠ x) : a ∈ l2 := by
  induction l generalizing l2 with
  | nil => simp at ha
  | cons y rest ih =>
    unfold listRemove at h
    split at h
    · cases h
      next heq =>
        rcases List.mem_cons.mp ha with h1 | h1
        · exact absurd (h1.trans heq) hne
        · exact h1
    · split at h
      · cases h
      · cases h
        next hrec =>
          rcases List.mem_cons.mp ha with h1 | h1
          · exact h1 ▸ List.mem_cons_self _ _
          · exact List.mem_cons_of_mem _ (ih _ hrec h1)

theorem mapM_except_length {α β : Type} (f : α → Except PyErr β) (l : List α)
    (out : List β) (h : l.mapM f = Except.ok out) : out.length = l.length := by
  induction l generalizing out with
  | nil =>
    rw [List.mapM_nil] at h
    cases h
    rfl
  | cons a t ih =>
    rw [List.mapM_cons] at h
    cases hfa : f a with
    | error e => rw [hfa] at h; simp [Bind.bind, Except.bind] at h
    | ok b =>
      rw [hfa] at h
      cases hmt : t.mapM f with
      | error e =>
        rw [hmt] at h
        simp [Bind.bind, Except.bind, Pure.pure, Except.pure] at h
      | ok bs =>
        rw [hmt] at h
        simp only [Bind.bind, Except.bind, Pure.pure, Except.pure] at h
        cases h
        simp [ih bs hmt]

theorem dictGet_foldl_pairs {α : Type} (ps : List (String × α))
    (d : List (String × α)) (k : String) :
    dictGet (ps.foldl (fun d2 p => dictSet d2 p.1 p.2) d) k =
      match ps.reverse.find? (fun q => decide (q.1 = k)) with
      | some q => some q.2
      | none => dictGet d k := by
  induction ps generalizing d with
  | nil => simp
  | cons q t ih =>
    simp only [List.foldl_cons, List.reverse_cons]
    rw [ih, List.find?_append]
    cases hf : t.reverse.find? (fun r => decide (r.1 = k)) with
    | some r => simp [hf, Option.or]
    | none =>
      rw [dictGet_dictSet]
      by_cases hq : q.1 = k <;> simp [List.find?, hq, Option.or]

theorem getoptLoop_nil (so : List Char) (lo : List String) :
    getoptLoop so lo [] = Except.ok ([], []) := by
  unfold getoptLoop
  rfl

theorem getoptLoop_stop (so : List Char) (lo : List String) (t : String)
    (rest : List String) (h : pyStartsWith t "-" = false) :
    getoptLoop so lo (t :: rest) = Except.ok ([], t :: rest) := by
  unfold getoptLoop
  rw [if_pos (Or.inl h)]

theorem kwargsParse_nil (fw : FunctionWrapper) (h : requiredOf fw ≠ []) :
    kwargsParse fw [] = Except.error (PyErr.notEnoughArgs
      ("The following options are required: " ++ joinComma (requiredOf fw) ++ ".")) := by
  have hloop : kwLoop fw [] none (kwargsInit fw) = Except.ok (kwargsInit fw) := rfl
  have hfilter : (requiredOf fw).filter
      (fun a => decide (dictGet (kwargsInit fw) a = none)) = requiredOf fw := by
    apply List.filter_eq_self.mpr
    intro a ha
    have hnb := mem_required_not_boolean fw a ha
    unfold kwargsInit
    rw [dictGet_foldl_setconst]
    simp [hnb, dictGet]
  unfold kwargsParse
  rw [hloop]
  simp only [hfilter]
  rw [if_neg h]

theorem mixedParse_nil (fw : FunctionWrapper) (h : requiredOf fw ≠ []) :
    mixedParse fw [] = Except.error (PyErr.notEnoughArgs
      ("The following options are required: " ++ joinComma (requiredOf fw) ++ ".")) := by
  unfold mixedParse
  rw [getoptLoop_nil]
  dsimp only
  have hproc : processOpts fw [] none [] fw.arg_names =
      Except.ok ([], fw.arg_names) := rfl
  rw [hproc]
  simp only [List.zip_nil_right, List.mapM_nil, List.map_nil]
  have h1 : (requiredOf fw).filter
      (fun a => decide (dictGet ([] : List (String × Value)) a = none)) = requiredOf fw := by
    apply List.filter_eq_self.mpr
    intro a _
    simp [dictGet]
  have h2 : (requiredOf fw).filter
      (fun a => decide (a ∉ ([] : List String))) = requiredOf fw := by
    apply List.filter_eq_self.mpr
    intro a _
    simp
  simp only [Pure.pure, Except.pure, h1, h2]
  rw [if_neg h]

theorem argsParse_nil (fw : FunctionWrapper) (h : 0 < neededArgs fw) :
    ∃ m, argsParse fw [] = Except.error (PyErr.notEnoughArgs m) := by
  have hlt : ([] : List String).length < neededArgs fw := by simpa using h
  refine ⟨toString (neededArgs fw) ++ " arguments required, got only " ++
    toString (List.length ([] : List String)) ++ ".", ?_⟩
  unfold argsParse
  rw [if_pos hlt]

theorem parse_nil_insufficient (fw : FunctionWrapper) (h : requiresOne fw = true) :
    ∃ m, fw.parse [] = Except.error (PyErr.notEnoughArgs m) := by
  unfold FunctionWrapper.parse
  unfold requiresOne at h
  cases hs : fw.strategy with
  | args =>
    rw [hs] at h
    exact argsParse_nil fw (by simpa using h)
  | kwargs =>
    rw [hs] at h
    exact ⟨_, kwargsParse_nil fw (by simpa using h)⟩
  | mixed =>
    rw [hs] at h
    exact ⟨_, mixedParse_nil fw (by simpa using h)⟩

theorem processOpts_cons_eq (fw : FunctionWrapper) (opt val : String)
    (rest : List (String × String)) (lastName : Option String)
    (kw : List (String × Value)) (pa : List String) :
    processOpts fw ((opt, val) :: rest) lastName kw pa =
    (match resolveOptName fw opt lastName with
    | Except.error e => Except.error e
    | Except.ok nm =>
      match castParameter fw nm val with
      | Except.error e => Except.error e
      | Except.ok v =>
        match listRemove pa nm with
        | Except.error e => Except.error e
        | Except.ok pa2 => processOpts fw rest (some nm) (dictSet kw nm v) pa2) := rfl

theorem processOpts_sublist (fw : FunctionWrapper) (optlist : List (String × String))
    (ln : Option String) (kw0 : List (String × Value)) (pa0 : List String)
    (kw : List (String × Value)) (pa : List String)
    (h : processOpts fw optlist ln kw0 pa0 = Except.ok (kw, pa)) : pa.Sublist pa0 := by
  induction optlist generalizing ln kw0 pa0 with
  | nil =>
    rw [show processOpts fw [] ln kw0 pa0 = Except.ok (kw0, pa0) from rfl] at h
    cases h
    exact List.Sublist.refl _
  | cons ov rest ih =>
    obtain ⟨opt, val⟩ := ov
    rw [processOpts_cons_eq] at h
    repeat' split at h
    all_goals try cases h
    exact (ih _ _ _ h).trans (listRemove_sublist _ _ _ (by assumption))

theorem processOpts_preserves (fw : FunctionWrapper) (optlist : List (String × String))
    (ln : Option String) (kw0 : List (String × Value)) (pa0 : List String)
    (kw : List (String × Value)) (pa : List String)
    (h : processOpts fw optlist ln kw0 pa0 = Except.ok (kw, pa))
    (a : String) (hv : dictGet kw0 a ≠ none) : dictGet kw a ≠ none := by
  induction optlist generalizing ln kw0 pa0 with
  | nil =>
    rw [show processOpts fw [] ln kw0 pa0 = Except.ok (kw0, pa0) from rfl] at h
    cases h
    exact hv
  | cons ov rest ih =>
    obtain ⟨opt, val⟩ := ov
    rw [processOpts_cons_eq] at h
    repeat' split at h
    all_goals try cases h
    refine ih _ _ _ h ?_
    rw [dictGet_dictSet]
    split
    · simp
    · exact hv

theorem processOpts_unclaimed (fw : FunctionWrapper) (optlist : List (String × String))
    (ln : Option String) (kw0 : List (String × Value)) (pa0 : List String)
    (kw : List (String × Value)) (pa : List String)
    (h : processOpts fw optlist ln kw0 pa0 = Except.ok (kw, pa))
    (a : String) (hmem : a ∈ pa0) (hnone : dictGet kw0 a = none)
    (hfin : dictGet kw a = none) : a ∈ pa := by
  induction optlist generalizing ln kw0 pa0 with
  | nil =>
    rw [show processOpts fw [] ln kw0 pa0 = Except.ok (kw0, pa0) from rfl] at h
    cases h
    exact hmem
  | cons ov rest ih =>
    obtain ⟨opt, val⟩ := ov
    rw [processOpts_cons_eq] at h
    repeat' split at h
    all_goals try cases h
    rename_i s1 nm hres s2 v hcast s3 pa2 hrm
    by_cases hnm : nm = a
    · subst hnm
      have hne : dictGet (dictSet kw0 nm v) nm ≠ none := by
        rw [dictGet_dictSet]
        simp
      exact absurd hfin (processOpts_preserves fw rest (some nm) _ _ kw pa h nm hne)
    · have h1 : dictGet (dictSet kw0 nm v) a = none := by
        rw [dictGet_dictSet, if_neg hnm]
        exact hnone
      have h2 : a ∈ pa2 := listRemove_mem pa0 nm a pa2 hrm hmem (fun hh => hnm hh.symm)
      exact ih _ _ _ h h2 h1

/-- C2: positional token-count bounds of `_ArgsFunction.parse`: strictly fewer
tokens than the non-defaulted parameter count raises NotEnoughArgs, more
tokens than the total parameter count raises the general PyoptError, and
otherwise — when every zipped cast succeeds — parse returns the tokens cast
in order against the corresponding declared casts with an empty keyword
mapping. -/
theorem positional_token_count_bounds :
    (∀ (fw : FunctionWrapper) (raw : List String),
      raw.length < neededArgs fw →
      argsParse fw raw = Except.error (PyErr.notEnoughArgs
        (toString (neededArgs fw) ++ " arguments required, got only " ++
          toString raw.length ++ "."))) ∧
    (∀ (fw : FunctionWrapper) (raw : List String),
      fw.arg_names.length < raw.length →
      argsParse fw raw = Except.error (PyErr.pyopt
        ("Got " ++ toString raw.length ++ " arguments and expected at most " ++
          toString fw.arg_names.length ++ "."))) ∧
    (∀ (fw : FunctionWrapper) (raw : List String) (vals : List Value),
      neededArgs fw ≤ raw.length → raw.length ≤ fw.arg_names.length →
      (raw.zip fw.arg_names).mapM (fun p => castParameter fw p.2 p.1) =
        Except.ok vals →
      argsParse fw raw = Except.ok (vals, [])) := by
  refine ⟨?_, ?_, ?_⟩
  · intro fw raw h
    unfold argsParse
    rw [if_pos h]
  · intro fw raw h
    have h1 : ¬ raw.length < neededArgs fw := by
      have h2 : neededArgs fw ≤ fw.arg_names.length := Nat.sub_le _ _
      omega
    unfold argsParse
    rw [if_neg h1, if_pos h]
  · intro fw raw vals h1 h2 h3
    unfold argsParse
    rw [if_neg (by omega), if_neg (by omega), h3]

/-- C9: result-shape invariant: a successful positional parse always carries
an empty keyword mapping, and a successful keyword parse always carries an
empty positional sequence. -/
theorem strategies_result_shape :
    (∀ (fw : FunctionWrapper) (raw : List String) (out : ParseOut),
      argsParse fw raw = Except.ok out → out.2 = []) ∧
    (∀ (fw : FunctionWrapper) (raw : List String) (out : ParseOut),
      kwargsParse fw raw = Except.ok out → out.1 = []) := by
  constructor
  · intro fw raw out h
    unfold argsParse at h
    split at h
    · cases h
    · split at h
      · cases h
      · split at h
        · cases h
        · cases h
          rfl
  · intro fw raw out h
    unfold kwargsParse at h
    split at h
    · cases h
    · simp only [] at h
      split at h
      · cases h
        rfl
      · cases h

/-- C6 counterexample: with zero registered functions and a nonempty token
list, setup raises the builtin NotImplementedError, which is NOT a member of
the PyoptError family; and with an empty token list, reading the program path
raises IndexError before the zero-functions check, so no configuration error
is raised at all — both refute the claim that a ConfigurationError belonging
to the single documented error family is raised regardless of the token
list. -/
theorem zero_functions_cx :
    setup ([] : Registry) ["prog"] = Except.error (PyErr.notImplementedError
      "No functions were decorated for command-line usage.") ∧
    isPyoptFamily (PyErr.notImplementedError
      "No functions were decorated for command-line usage.") = false ∧
    setup ([] : Registry) ([] : List String) = Except.error PyErr.indexError :=
  ⟨rfl, rfl, rfl⟩

/-- C6 as amended: calling setup with zero registered functions and a
NONEMPTY token list raises NotImplementedError (a builtin outside the
PyoptError family); an empty token list instead raises IndexError from
reading the program path. -/
theorem zero_functions_not_implemented (prog : String) (rest : List String) :
    setup ([] : Registry) (prog :: rest) = Except.error (PyErr.notImplementedError
      "No functions were decorated for command-line usage.") ∧
    setup ([] : Registry) ([] : List String) = Except.error PyErr.indexError :=
  ⟨rfl, rfl⟩

/-- C8: the option specifications `_MixedFunction.parse` hands to getopt,
evaluated at a function with boolean parameter debug and required parameter
name.  The specification says the boolean contributes one no-argument short
option given by its first letter (d), but the code joins the FULL boolean
names into the short-option string, so every character of debug becomes a
short option; the long options match the specification. -/
theorem mixed_short_option_bug :
    buildShorts fwMix = "debugn:" ∧
    specShortOptions fwMix = "dn:" ∧
    buildShorts fwMix ≠ specShortOptions fwMix ∧
    buildLongs fwMix = ["debug", "name="] :=
  ⟨rfl, rfl, by decide, rfl⟩

/-- C4 counterexample: a short switch whose letter is not in the shortcut
table makes the keyword strategy raise a Python KeyError, which is NOT a
member of the documented single error family — refuting the claim that every
unknown switch produces a parsing error of that family. -/
theorem kwargs_unknown_short_keyerror_cx :
    kwargsParse fwKw ["-z"] = Except.error (PyErr.keyError "z") ∧
    isPyoptFamily (PyErr.keyError "z") = false :=
  ⟨rfl, rfl⟩

/-- C4 as amended: for a token scanned in switch position, an unknown long
switch raises the PyoptError "Illegal option ... given." (a member of the
single error family), a token not starting with a dash raises the PyoptError
about switch syntax (also in the family), but a two-character short switch
whose letter is not in the shortcut table raises a Python KeyError, which is
outside the family. -/
theorem kwargs_unknown_switch_errors :
    (∀ (fw : FunctionWrapper) (tok : String) (rest : List String),
      pyStartsWith tok "--" = true → tok.drop 2 ∉ fw.arg_names →
      kwargsParse fw (tok :: rest) = Except.error (PyErr.pyopt
        ("Illegal option " ++ sq ++ tok.drop 2 ++ sq ++ " given.")) ∧
      isPyoptFamily (PyErr.pyopt
        ("Illegal option " ++ sq ++ tok.drop 2 ++ sq ++ " given.")) = true) ∧
    (∀ (fw : FunctionWrapper) (tok : String) (rest : List String),
      pyStartsWith tok "--" = false → pyStartsWith tok "-" = true →
      tok.length = 2 → shortcutLookup fw (strHead (tok.drop 1)) = none →
      kwargsParse fw (tok :: rest) = Except.error
        (PyErr.keyError (String.singleton (strHead (tok.drop 1)))) ∧
      isPyoptFamily (PyErr.keyError (String.singleton (strHead (tok.drop 1)))) = false) ∧
    (∀ (fw : FunctionWrapper) (tok : String) (rest : List String),
      pyStartsWith tok "--" = false → pyStartsWith tok "-" = false →
      kwargsParse fw (tok :: rest) = Except.error (PyErr.pyopt
        ("Options must start with " ++ sq ++ "-" ++ sq ++ " or " ++ sq ++
          "--" ++ sq ++ "."))) := by
  refine ⟨?_, ?_, ?_⟩
  · intro fw tok rest h1 h2
    have hc : kwClassify fw tok none = Except.ok (KwStep.named (tok.drop 2)) := by
      unfold kwClassify
      rw [if_pos h1]
    refine ⟨?_, rfl⟩
    unfold kwargsParse
    unfold kwLoop
    rw [hc]
    dsimp only
    rw [if_neg h2]
  · intro fw tok rest h1 h2 h3 h4
    have hc : kwClassify fw tok none = Except.error
        (PyErr.keyError (String.singleton (strHead (tok.drop 1)))) := by
      unfold kwClassify
      rw [if_neg (by simp [h1]), if_pos h2, if_pos h3, h4]
    refine ⟨?_, rfl⟩
    unfold kwargsParse
    unfold kwLoop
    rw [hc]
  · intro fw tok rest h1 h2
    have hc : kwClassify fw tok none = Except.error (PyErr.pyopt
        ("Options must start with " ++ sq ++ "-" ++ sq ++ " or " ++ sq ++
          "--" ++ sq ++ ".")) := by
      unfold kwClassify
      rw [if_neg (by simp [h1]), if_neg (by simp [h2])]
    unfold kwargsParse
    unfold kwLoop
    rw [hc]

/-- C3: the keyword strategy pre-seeds every boolean parameter to False in
its starting dict, and the flag-only reference function (boolean debug,
required string name) parses the three reference token lists exactly as the
specification describes: the first two succeed with the expected mapping,
the third raises InsufficientArguments listing name. -/
theorem kwargs_boolean_preseed_and_examples :
    (∀ (fw : FunctionWrapper) (b : String), b ∈ booleansOf fw →
      dictGet (kwargsInit fw) b = some (Value.vBool false)) ∧
    kwargsParse fwKw ["-n", "Alice"] =
      Except.ok ([], [("debug", Value.vBool false), ("name", Value.vStr "Alice")]) ∧
    kwargsParse fwKw ["-n", "Alice", "-d"] =
      Except.ok ([], [("debug", Value.vBool true), ("name", Value.vStr "Alice")]) ∧
    kwargsParse fwKw ["-d"] =
      Except.error (PyErr.notEnoughArgs "The following options are required: name.") := by
  refine ⟨?_, rfl, rfl, rfl⟩
  intro fw b hb
  unfold kwargsInit
  rw [dictGet_foldl_setconst, if_pos hb]

/-- C5 counterexample: with two docstring lines documenting the same
parameter x, the recorded help string is the trailing text of the SECOND
(last) matching line, not of the first as the claim states. -/
theorem docstring_first_line_cx :
    dictGet (parseDocstring ["x"] (some "x - first\nx - second")).2 "x" =
      some "second" ∧
    some ("second" : String) ≠ some ("first" : String) :=
  ⟨rfl, by decide⟩

/-- C5 as amended: the help string recorded for a parameter is the trailing
text of the LAST stripped docstring line matching it (each matching line
overwrites the entry in place), characterised here as the backwards-first
match over the matched lines. -/
theorem docstring_last_line_wins (names : List String) (doc : Option String)
    (p : String) :
    dictGet (parseDocstring names doc).2 p =
      (((splitLinesPy (doc.getD "")).filterMap (lineMatch names)).reverse.find?
        (fun q => decide (q.1 = p))).map Prod.snd := by
  unfold parseDocstring
  dsimp only
  rw [dictGet_foldl_pairs]
  cases hf : ((splitLinesPy (doc.getD "")).filterMap (lineMatch names)).reverse.find?
      (fun q => decide (q.1 = p)) with
  | some q => simp
  | none => simp [dictGet]

/-- C1: the single reinterpretation rule of Exposer.parse_args: when the
selected strategy raises NotEnoughArgs, the coordinator raises PrintHelp with
the selected function usage text if and only if the raw-argument list is
empty, and propagates the NotEnoughArgs unchanged otherwise; consequently a
single registered function requiring at least one parameter, invoked with
zero raw arguments, always yields PrintHelp (never NotEnoughArgs). -/
theorem coordinator_empty_args_reinterpretation :
    (∀ (funcs : Registry) (cmd : List String) (st : SetupSt) (m : String),
      setup funcs cmd = Except.ok st →
      st.func.parse st.raw_args = Except.error (PyErr.notEnoughArgs m) →
      parseArgs funcs cmd =
        (if st.raw_args = [] then Except.error (PyErr.printHelp (funcUsage st))
          else Except.error (PyErr.notEnoughArgs m))) ∧
    (∀ (nm prog : String) (fw : FunctionWrapper),
      requiresOne fw = true →
      parseArgs [(nm, fw)] [prog] =
        Except.error (PyErr.printHelp (singleUsage (basename prog) fw))) := by
  constructor
  · intro funcs cmd st m hsetup hparse
    unfold parseArgs
    rw [hsetup]
    dsimp only
    rw [hparse]
    dsimp only
    by_cases h : st.raw_args = []
    · rw [if_pos h, if_pos (by simp [h])]
    · rw [if_neg (by simpa [List.length_eq_zero] using h), if_neg h]
  · intro nm prog fw hreq
    have hsetup : setup [(nm, fw)] [prog] =
        Except.ok ⟨basename prog, true, [], fw⟩ := rfl
    obtain ⟨m, hm⟩ := parse_nil_insufficient fw hreq
    unfold parseArgs
    rw [hsetup]
    dsimp only
    rw [hm]
    dsimp only
    simp [funcUsage]

/-- C1 witness: the flag-only reference function registered alone and invoked
with only the program path yields PrintHelp carrying its single-function
usage text. -/
theorem coordinator_empty_args_reinterpretation_w :
    parseArgs [("greet", fwKw)] ["prog"] =
      Except.error (PyErr.printHelp (singleUsage (basename "prog") fwKw)) :=
  coordinator_empty_args_reinterpretation.2 "greet" "prog" fwKw rfl

/-- C7 counterexample: with the mixed-strategy reference function, the
recognized switch -d appearing AFTER the plain token Alice is not consumed
as a switch at all: getopt stops at the plain token, the keyword mapping
comes back empty, and -d is instead cast positionally (the boolean cast
ignores its input), refuting switch consumption from anywhere in the
stream. -/
theorem mixed_switch_after_plain_cx :
    getoptLoop (buildShorts fwMix).toList (buildLongs fwMix) ["Alice", "-d"] =
      Except.ok ([], ["Alice", "-d"]) ∧
    mixedParse fwMix ["Alice", "-d"] =
      Except.ok ([Value.vStr "Alice", Value.vBool true], []) := by
  have h1 : getoptLoop (buildShorts fwMix).toList (buildLongs fwMix) ["Alice", "-d"] =
      Except.ok ([], ["Alice", "-d"]) :=
    getoptLoop_stop _ _ _ _ rfl
  refine ⟨h1, ?_⟩
  unfold mixedParse
  rw [h1]
  rfl

/-- C7 as amended: the getopt scanner consumes switches only from the prefix
of the token stream before the first non-switch token (a token not starting
with a dash stops it with nothing consumed); the positional parameter list
left after switch processing is a sublist of the declared order; and the
remaining non-option tokens are assigned against exactly that list, each cast
by its own parameter, with the keyword mapping as processed. -/
theorem mixed_switch_prefix_only :
    (∀ (so : List Char) (lo : List String) (t : String) (rest : List String),
      pyStartsWith t "-" = false →
      getoptLoop so lo (t :: rest) = Except.ok ([], t :: rest)) ∧
    (∀ (fw : FunctionWrapper) (optlist : List (String × String)) (ln : Option String)
        (kw0 : List (String × Value)) (pa0 : List String)
        (kw : List (String × Value)) (pa : List String),
      processOpts fw optlist ln kw0 pa0 = Except.ok (kw, pa) → pa.Sublist pa0) ∧
    (∀ (fw : FunctionWrapper) (raw : List String) (optlist : List (String × String))
        (toks : List String) (kw : List (String × Value)) (pa : List String)
        (vals : List Value),
      getoptLoop (buildShorts fw).toList (buildLongs fw) raw = Except.ok (optlist, toks) →
      processOpts fw optlist none [] fw.arg_names = Except.ok (kw, pa) →
      (pa.zip toks).mapM (fun p => castParameter fw p.1 p.2) = Except.ok vals →
      (((requiredOf fw).filter (fun a => decide (dictGet kw a = none))).filter
        (fun a => decide (a ∉ (pa.zip toks).map Prod.fst))) = [] →
      mixedParse fw raw = Except.ok (vals, kw)) := by
  refine ⟨getoptLoop_stop, processOpts_sublist, ?_⟩
  intro fw raw optlist toks kw pa vals h1 h2 h3 h4
  unfold mixedParse
  rw [h1]
  dsimp only
  rw [h2]
  dsimp only
  rw [h3]
  simp only [h4]
  rfl

/-- C7 witness: the three amended conjuncts applied at concrete inputs: a
plain head token stops getopt, processing one -d switch leaves the sublist
of unclaimed parameters, and a single plain token fills the first unclaimed
parameter. -/
theorem mixed_switch_prefix_only_w :
    getoptLoop [] [] ["Alice"] = Except.ok ([], ["Alice"]) ∧
    (["name"] : List String).Sublist ["name", "debug"] ∧
    mixedParse fwMix ["Alice"] = Except.ok ([Value.vStr "Alice"], []) :=
  ⟨mixed_switch_prefix_only.1 [] [] "Alice" [] rfl,
   mixed_switch_prefix_only.2.1 fwMix [("-d", "")] none [] ["name", "debug"]
     [("debug", Value.vBool true)] ["name"] rfl,
   mixed_switch_prefix_only.2.2 fwMix ["Alice"] [] ["Alice"] [] ["name", "debug"]
     [Value.vStr "Alice"] (getoptLoop_stop _ _ _ _ rfl) rfl rfl rfl⟩

/-- C10: the mixed strategy silently drops excess positional tokens: whenever
getopt leaves more trailing plain tokens than there are parameters unclaimed
by switches and the zipped casts succeed, parse succeeds, the excess tokens
appear in neither result component, and the positional result has exactly one
value per unclaimed parameter. -/
theorem mixed_drops_excess_positional :
    ∀ (fw : FunctionWrapper) (raw : List String) (optlist : List (String × String))
      (toks : List String) (kw : List (String × Value)) (pa : List String)
      (vals : List Value),
      getoptLoop (buildShorts fw).toList (buildLongs fw) raw = Except.ok (optlist, toks) →
      processOpts fw optlist none [] fw.arg_names = Except.ok (kw, pa) →
      pa.length < toks.length →
      (pa.zip toks).mapM (fun p => castParameter fw p.1 p.2) = Except.ok vals →
      mixedParse fw raw = Except.ok (vals, kw) ∧ vals.length = pa.length := by
  intro fw raw optlist toks kw pa vals h1 h2 hlen h3
  have hfst : (pa.zip toks).map Prod.fst = pa := List.map_fst_zip _ _ (Nat.le_of_lt hlen)
  have hng : (((requiredOf fw).filter (fun a => decide (dictGet kw a = none))).filter
      (fun a => decide (a ∉ (pa.zip toks).map Prod.fst))) = [] := by
    rw [hfst, List.filter_eq_nil_iff]
    intro a ha
    have h4 := List.mem_filter.mp ha
    have h5 : dictGet kw a = none := by simpa using h4.2
    have h6 : a ∈ fw.arg_names := mem_required_mem_args fw a h4.1
    have h7 := processOpts_unclaimed fw optlist none [] fw.arg_names kw pa h2 a h6 rfl h5
    simp [h7]
  constructor
  · unfold mixedParse
    rw [h1]
    dsimp only
    rw [h2]
    dsimp only
    rw [h3]
    simp only [hng]
    rfl
  · have h8 := mapM_except_length _ _ _ h3
    rw [h8, List.length_zip]
    omega

/-- C10 witness: the mixed reference function given one useful token and two
excess plain tokens succeeds, ignoring the excess, with two values for the
two unclaimed parameters. -/
theorem mixed_drops_excess_positional_w :
    mixedParse fwMix ["Alice", "x", "y"] =
      Except.ok ([Value.vStr "Alice", Value.vBool true], []) ∧
    ([Value.vStr "Alice", Value.vBool true] : List Value).length =
      (["name", "debug"] : List String).length :=
  mixed_drops_excess_positional fwMix ["Alice", "x", "y"] [] ["Alice", "x", "y"] []
    ["name", "debug"] [Value.vStr "Alice", Value.vBool true]
    (getoptLoop_stop _ _ _ _ rfl) rfl (by decide) rfl

/-- C2 witness: the bounds and the in-range success applied at the positional
reference function with one token, three tokens, and two well-typed
tokens. -/
theorem positional_token_count_bounds_w :
    argsParse fwPos ["x"] = Except.error (PyErr.notEnoughArgs
      (toString (neededArgs fwPos) ++ " arguments required, got only " ++
        toString (["x"] : List String).length ++ ".")) ∧
    argsParse fwPos ["a", "b", "c"] = Except.error (PyErr.pyopt
      ("Got " ++ toString (["a", "b", "c"] : List String).length ++
        " arguments and expected at most " ++ toString fwPos.arg_names.length ++ ".")) ∧
    argsParse fwPos ["x", "5"] = Except.ok ([Value.vStr "x", Value.vInt 5], []) :=
  ⟨positional_token_count_bounds.1 fwPos ["x"] (by decide),
   positional_token_count_bounds.2.1 fwPos ["a", "b", "c"] (by decide),
   positional_token_count_bounds.2.2 fwPos ["x", "5"] [Value.vStr "x", Value.vInt 5]
     (by decide) (by decide) rfl⟩

/-- C3 witness: the boolean parameter of the flag-only reference function is
pre-seeded to False. -/
theorem kwargs_boolean_preseed_and_examples_w :
    dictGet (kwargsInit fwKw) "debug" = some (Value.vBool false) :=
  kwargs_boolean_preseed_and_examples.1 fwKw "debug" (by decide)

/-- C4 witness: the three amended error behaviours at concrete tokens: an
unknown long switch and a dashless token produce family PyoptErrors, an
unknown short letter produces a KeyError outside the family. -/
theorem kwargs_unknown_switch_errors_w :
    (kwargsParse fwKw ["--bogus"] = Except.error (PyErr.pyopt
      ("Illegal option " ++ sq ++ ("--bogus" : String).drop 2 ++ sq ++ " given.")) ∧
     isPyoptFamily (PyErr.pyopt
      ("Illegal option " ++ sq ++ ("--bogus" : String).drop 2 ++ sq ++ " given.")) = true) ∧
    (kwargsParse fwKw ["-q"] = Except.error
      (PyErr.keyError (String.singleton (strHead (("-q" : String).drop 1)))) ∧
     isPyoptFamily (PyErr.keyError
      (String.singleton (strHead (("-q" : String).drop 1)))) = false) ∧
    kwargsParse fwKw ["oops"] = Except.error (PyErr.pyopt
      ("Options must start with " ++ sq ++ "-" ++ sq ++ " or " ++ sq ++
        "--" ++ sq ++ ".")) :=
  ⟨kwargs_unknown_switch_errors.1 fwKw "--bogus" [] rfl (by decide),
   kwargs_unknown_switch_errors.2.1 fwKw "-q" [] rfl rfl rfl rfl,
   kwargs_unknown_switch_errors.2.2 fwKw "oops" [] rfl rfl⟩

/-- C9 witness: a successful positional parse carries an empty keyword
mapping and a successful keyword parse carries an empty positional
sequence, at concrete inputs. -/
theorem strategies_result_shape_w :
    (([Value.vStr "x", Value.vInt 5], ([] : List (String × Value))) : ParseOut).2 = [] ∧
    ((([] : List Value), [("debug", Value.vBool false), ("name", Value.vStr "Alice")]) :
      ParseOut).1 = [] :=
  ⟨strategies_result_shape.1 fwPos ["x", "5"]
      ([Value.vStr "x", Value.vInt 5], []) rfl,
   strategies_result_shape.2 fwKw ["-n", "Alice"]
      ([], [("debug", Value.vBool false), ("name", Value.vStr "Alice")]) rfl⟩

end Pyopt
